import Mathlib

/-!
Verification of the core of `elora_hid` (`src/main.rs`): a stock-ticker
daemon that periodically fetches prices, encodes them into a fixed-size
HID report and writes it to an Elora keyboard, sleeping between cycles
according to a market-hours refresh policy.

Shallow embedding conventions:
* A UTC instant (`chrono::DateTime<Utc>`) is a `Nat`: whole seconds since
  the Unix epoch (1970-01-01 00:00:00 UTC, a Thursday).  `chrono`'s `Utc`
  calendar has no leap seconds, so `date_naive` is division by 86400,
  `hour`/`minute` are divisions of the remainder, and `weekday` is the
  day count plus 3, mod 7 (0 = Monday, ..., 5 = Saturday, 6 = Sunday),
  matching `chrono::Weekday`'s Monday-first enumeration.
* Byte buffers (`Vec<u8>`, `String` contents) are `List Nat`.
* Fallible operations (`Result`) are `Except String`; the `unwrap` of
  `Duration::to_std()` in `get_refresh_rate` is modelled by `Option`,
  with `none` for the panic case.
* The HID library calls (`open_device`, `write`) are opaque
  `Except`-returning parameters of `send_to_keyboard`.
-/

set_option autoImplicit false

namespace EloraHid

/-! ## Constants (`src/main.rs` lines 10-35) -/

/-- splitkb.com vendor id (`VENDOR_ID: u16 = 0x8D1D`). -/
def VENDOR_ID : Nat := 0x8D1D

/-- Elora product id (`PRODUCT_ID: u16 = 0x9D9D`). -/
def PRODUCT_ID : Nat := 0x9D9D

/-- `USAGE_ID: u16 = 0x61`. -/
def USAGE_ID : Nat := 0x61

/-- `USAGE_PAGE: u16 = 0xFF60`. -/
def USAGE_PAGE : Nat := 0xFF60

/-- Refresh rate while the market is open: 2 minutes, in seconds. -/
def REFRESH_RATE_MARKET_OPEN_SECS : Nat := 2 * 60

/-- Refresh rate while the market is closed: 3 hours, in seconds. -/
def REFRESH_RATE_MARKET_CLOSED_SECS : Nat := 3 * 60 * 60

/-- US market open time in UTC, hour component. -/
def MARKET_OPEN_HOUR : Nat := 14

/-- US market open time in UTC, minute component. -/
def MARKET_OPEN_MINUTE : Nat := 30

/-- US market close time in UTC, hour component. -/
def MARKET_CLOSE_HOUR : Nat := 21

/-- US market close time in UTC, minute component. -/
def MARKET_CLOSE_MINUTE : Nat := 0

/-- HID packet size in bytes. -/
def PACKET_SIZE : Nat := 32

/-! ## Time model -/

/-- Day count since the Unix epoch of an instant (`now.date_naive()`). -/
def dateOf (t : Nat) : Nat := t / 86400

/-- `now.hour()`: hours since midnight UTC. -/
def hourOf (t : Nat) : Nat := t % 86400 / 3600

/-- `now.minute()`: minute within the hour. -/
def minuteOf (t : Nat) : Nat := t % 3600 / 60

/-- `date.weekday()` as a number, Monday-first like `chrono::Weekday`:
0 = Monday, ..., 4 = Friday, 5 = Saturday, 6 = Sunday.
Day 0 (1970-01-01) was a Thursday, number 3. -/
def weekdayOf (d : Nat) : Nat := (d + 3) % 7

/-! ## Refresh policy (`is_market_open`, `get_next_market_open`,
`get_refresh_rate`, `src/main.rs` lines 42-120) -/

/-- `is_market_open`: weekends are closed; otherwise the current
minutes-since-midnight must lie in the half-open window
`[open_minutes, close_minutes)`. -/
def is_market_open (now : Nat) : Bool :=
  if weekdayOf (dateOf now) = 5 ∨ weekdayOf (dateOf now) = 6 then
    false
  else
    decide (MARKET_OPEN_HOUR * 60 + MARKET_OPEN_MINUTE ≤ hourOf now * 60 + minuteOf now
      ∧ hourOf now * 60 + minuteOf now < MARKET_CLOSE_HOUR * 60 + MARKET_CLOSE_MINUTE)

/-- The Saturday/Sunday rollover used (twice) by `get_next_market_open`:
`if weekday == Sat { date += 2 } else if weekday == Sun { date += 1 }`. -/
def rollWeekend (d : Nat) : Nat :=
  if weekdayOf d = 5 then d + 2
  else if weekdayOf d = 6 then d + 1
  else d

/-- Seconds since midnight of the market open time (14:30:00). -/
def marketOpenSecs : Nat := MARKET_OPEN_HOUR * 3600 + MARKET_OPEN_MINUTE * 60

/-- `get_next_market_open`: roll a weekend date forward to Monday, take
today's open; if `now` is already at or past it, advance one day and roll
a weekend again. -/
def get_next_market_open (now : Nat) : Nat :=
  let date := rollWeekend (dateOf now)
  let open_today := date * 86400 + marketOpenSecs
  if now < open_today then
    open_today
  else
    rollWeekend (date + 1) * 86400 + marketOpenSecs

/-- `get_refresh_rate`: the wait in seconds before the next cycle.
`none` models the panic of `(until_open + 2 minutes).to_std().unwrap()`
when the chrono duration is negative; otherwise `some` the wait. -/
def get_refresh_rate (now : Nat) : Option Nat :=
  if is_market_open now then
    some REFRESH_RATE_MARKET_OPEN_SECS
  else
    let until_open : Int := (get_next_market_open now : Int) - (now : Int)
    if until_open < 3 * 60 * 60 then
      if until_open + 2 * 60 < 0 then none
      else some (until_open + 2 * 60).toNat
    else
      some REFRESH_RATE_MARKET_CLOSED_SECS

/-! ## Display encoder (`convert_to_buffer`, `src/main.rs` lines 166-182) -/

/-- `convert_to_buffer`: truncate the text's bytes to `PACKET_SIZE` if
longer (`buf.truncate`), then zero-pad to `PACKET_SIZE` if shorter
(`buf.resize(PACKET_SIZE, 0)`). -/
def convert_to_buffer (text : List Nat) : List Nat :=
  let buf := text
  let buf := if PACKET_SIZE < buf.length then buf.take PACKET_SIZE else buf
  if buf.length < PACKET_SIZE then buf ++ List.replicate (PACKET_SIZE - buf.length) 0
  else buf

/-! ## Device session (`find_elora_device`, `send_to_keyboard`,
`src/main.rs` lines 185-226) -/

/-- The fields of `hidapi::DeviceInfo` that `find_elora_device` inspects. -/
structure DeviceInfo where
  vendor_id : Nat
  product_id : Nat
  usage : Nat
  usage_page : Nat
deriving DecidableEq, Repr

/-- The predicate of the `find` closure in `find_elora_device`. -/
def isEloraDevice (d : DeviceInfo) : Bool :=
  d.vendor_id = VENDOR_ID && d.product_id = PRODUCT_ID
    && d.usage = USAGE_ID && d.usage_page = USAGE_PAGE

/-- `find_elora_device`: first device in the enumeration matching the
vendor/product/usage/usage-page signature. -/
def find_elora_device (devices : List DeviceInfo) : Option DeviceInfo :=
  devices.find? isEloraDevice

/-- `send_to_keyboard`: if no Elora device is enumerated, return the
recoverable error `"Device disconnected"`; otherwise open the matched
device and write the converted buffer.  `open_device` and `write` stand
for the hidapi calls, whose failures propagate via `?`. -/
def send_to_keyboard {H : Type} (devices : List DeviceInfo)
    (open_device : DeviceInfo → Except String H)
    (write : H → List Nat → Except String Unit)
    (text : List Nat) : Except String Unit :=
  match find_elora_device devices with
  | none => Except.error "Device disconnected"
  | some dev =>
    match open_device dev with
    | Except.error e => Except.error e
    | Except.ok h => write h (convert_to_buffer text)

/-! ## Orchestrator (`run` and the `main` loop,
`src/main.rs` lines 229-278) -/

/-- `run`: fetch, then send; a fetch error is returned to the loop
instead of crashing. `fetch_result` stands for the outcome of
`fetch_prices_from_local_command`. -/
def run {H : Type} (fetch_result : Except String (List Nat))
    (devices : List DeviceInfo)
    (open_device : DeviceInfo → Except String H)
    (write : H → List Nat → Except String Unit) : Except String Unit :=
  match fetch_result with
  | Except.ok content => send_to_keyboard devices open_device write content
  | Except.error e => Except.error e

/-- One iteration of the `main` loop after `run` returns: the outcome is
only logged, then `get_refresh_rate` is consulted and the loop sleeps
exactly that long.  `none` models a panic of `get_refresh_rate`;
otherwise the result is the next wake-up instant. -/
def main_loop_step (t : Nat) (outcome : Except String Unit) : Option Nat :=
  match outcome, get_refresh_rate t with
  | _, none => none
  | _, some wait => some (t + wait)

/-- The wake-up instants of the `main` loop, starting at `t0`, with
`outcomes n` the result of the `n`-th call to `run` (cycle work time is
abstracted away: time advances by the sleeps). -/
def main_loop_trace (t0 : Nat) (outcomes : Nat → Except String Unit) :
    Nat → Option Nat
  | 0 => some t0
  | n + 1 =>
    match main_loop_trace t0 outcomes n with
    | none => none
    | some t => main_loop_step t (outcomes n)

/-! ## Rendering of the ticker set

The price file is written by the external `npx tsx pull.ts` command
(`PULL_COMMAND`/`PULL_ARGS`); `pull.ts` is not part of `src/`, so its
rendering is modelled from the spec. -/

/-- Lexicographic order on symbols (lists of characters, compared by
code point). -/
def symbolLe : List Char → List Char → Bool
  | [], _ => true
  | _ :: _, [] => false
  | a :: as, b :: bs =>
    if a.toNat < b.toNat then true
    else if b.toNat < a.toNat then false
    else symbolLe as bs

/-- Insert a pair into a symbol-sorted list of pairs. -/
def insertBySymbol (x : List Char × Rat) :
    List (List Char × Rat) → List (List Char × Rat)
  | [] => [x]
  | y :: ys => if symbolLe x.1 y.1 then x :: y :: ys else y :: insertBySymbol x ys

/-- Insertion sort of (symbol, price) pairs by symbol. -/
def sortBySymbol : List (List Char × Rat) → List (List Char × Rat)
  | [] => []
  | x :: xs => insertBySymbol x (sortBySymbol xs)

/-- Modelled from the spec: "price rounded to 0 decimal places", i.e.
rounding to the nearest integer, `⌊q + 1/2⌋`, computed by integer floor
division so that it evaluates. -/
def roundPrice (q : Rat) : Int := (2 * q.num + q.den) / (2 * (q.den : Int))

/-- Modelled from the spec: the rendering done by the external
`pull.ts` command (absent from `src/`) of one (symbol, price) pair,
`"<symbol>: <price rounded to 0 decimal places>$"`. -/
def render_pair (p : List Char × Rat) : List Char :=
  p.1 ++ [':', ' '] ++ Nat.toDigits 10 (roundPrice p.2).toNat ++ ['$']

/-- Modelled from the spec: the rendering done by the external
`pull.ts` command (absent from `src/`) of a whole ticker set — pairs in
lexicographic symbol order, joined by a single newline byte. -/
def render_ticker_set (ts : List (List Char × Rat)) : List Char :=
  List.intercalate [Char.ofNat 10] ((sortBySymbol ts).map render_pair)

/-- The encoding pipeline for a ticker set: render (spec-modelled),
take the UTF-8 bytes (all output is ASCII), convert to the fixed-size
buffer with `convert_to_buffer`. -/
def encode_ticker_set (ts : List (List Char × Rat)) : List Nat :=
  convert_to_buffer ((render_ticker_set ts).map Char.toNat)

/-! ## Helper lemmas -/

/-- `get_next_market_open` always lies strictly in the future, on a
Monday-to-Friday day, at 14:30:00 UTC. -/
theorem get_next_market_open_spec (now : Nat) :
    now < get_next_market_open now ∧
    weekdayOf (dateOf (get_next_market_open now)) < 5 ∧
    get_next_market_open now % 86400 = marketOpenSecs := by
  simp only [get_next_market_open, rollWeekend, weekdayOf, dateOf, marketOpenSecs,
    MARKET_OPEN_HOUR, MARKET_OPEN_MINUTE]
  split_ifs <;> omega

/-- `get_refresh_rate` never hits the `to_std().unwrap()` panic branch. -/
theorem get_refresh_rate_isSome (now : Nat) : ∃ w, get_refresh_rate now = some w := by
  have hlt := (get_next_market_open_spec now).1
  simp only [get_refresh_rate]
  split_ifs with h1 h2 h3
  · exact ⟨_, rfl⟩
  · exfalso; omega
  · exact ⟨_, rfl⟩
  · exact ⟨_, rfl⟩

/-- The wait chosen while the market is closed, with the time to the
next open written in `Nat` subtraction (sound since the next open is in
the future). -/
theorem get_refresh_rate_closed_eq (now : Nat) (h : is_market_open now = false) :
    get_refresh_rate now =
      some (if get_next_market_open now - now < 3 * 60 * 60
        then (get_next_market_open now - now) + 2 * 60
        else 3 * 60 * 60) := by
  have hlt := (get_next_market_open_spec now).1
  simp only [get_refresh_rate, h, Bool.false_eq_true, if_false,
    REFRESH_RATE_MARKET_CLOSED_SECS]
  split_ifs <;> first
    | (simp only [Option.some.injEq]; omega)
    | (exfalso; omega)
    | rfl

/-- The output of `convert_to_buffer` always has exactly `PACKET_SIZE`
bytes. -/
theorem convert_to_buffer_length (text : List Nat) :
    (convert_to_buffer text).length = PACKET_SIZE := by
  simp only [convert_to_buffer]
  split_ifs <;> simp_all
  omega

/-- `roundPrice` agrees with Mathlib's round-half-up rounding. -/
theorem roundPrice_eq_round (q : Rat) : roundPrice q = round q := by
  obtain ⟨n, d, hd, hred⟩ := q
  show (2 * n + (d : Int)) / (2 * (d : Int)) = round (Rat.mk' n d hd hred)
  rw [Rat.mk'_eq_divInt, Rat.divInt_eq_div, round_eq]
  have hd0 : ((d : ℚ)) ≠ 0 := by exact_mod_cast hd
  have hq : ((n : ℚ) / (d : ℚ) + 1 / 2 : ℚ)
      = ((2 * n + (d : ℤ) : ℤ) : ℚ) / ((2 * d : ℕ) : ℚ) := by
    push_cast
    field_simp
    ring
  push_cast
  rw [hq, Rat.floor_intCast_div_natCast]
  push_cast
  ring_nf

/-- The rational 200.1 in lowest terms; `Rat` division does not reduce
in the kernel, so concrete evaluations go through this literal. -/
theorem rat_200_1_eq : (2001 : Rat) / 10 = Rat.mk' 2001 10 (by decide) (by decide) := by
  rw [Rat.mk'_eq_divInt, Rat.divInt_eq_div]
  norm_num

/-- `List.find?` returns the first element satisfying the predicate:
everything before the hit fails it. -/
theorem find_first {α : Type} (p : α → Bool) (l : List α) (a : α)
    (h : l.find? p = some a) :
    p a = true ∧ ∃ l1 l2 : List α, l = l1 ++ a :: l2 ∧ ∀ x ∈ l1, p x = false := by
  induction l with
  | nil => simp at h
  | cons b t ih =>
    cases hb : p b with
    | true =>
      rw [List.find?_cons_of_pos _ hb] at h
      injection h with h
      subst h
      exact ⟨hb, [], t, rfl, by simp⟩
    | false =>
      rw [List.find?_cons_of_neg _ (by simp [hb])] at h
      obtain ⟨hpa, l1, l2, heq, hall⟩ := ih h
      refine ⟨hpa, b :: l1, l2, by rw [heq]; rfl, ?_⟩
      intro x hx
      rcases List.mem_cons.mp hx with rfl | hx
      · exact hb
      · exact hall x hx

/-! ## Claim theorems -/

/-- C1: `convert_to_buffer` always returns exactly `PACKET_SIZE = 32`
bytes; the empty string yields the all-zero 32-byte buffer; and a run of
`send_to_keyboard` whose writer rejects any buffer that is not exactly
`PACKET_SIZE` bytes never sees that rejection. -/
theorem convert_to_buffer_packet_size :
    (∀ text : List Nat, (convert_to_buffer text).length = PACKET_SIZE)
    ∧ convert_to_buffer [] = List.replicate PACKET_SIZE 0
    ∧ ∀ (devices : List DeviceInfo) (text : List Nat),
        send_to_keyboard (H := Unit) devices (fun _ => Except.ok ())
          (fun _ buf =>
            if buf.length = PACKET_SIZE then Except.ok () else Except.error "bad size")
          text ≠ Except.error "bad size" := by
  refine ⟨convert_to_buffer_length, by decide, ?_⟩
  intro devices text
  simp only [send_to_keyboard]
  cases find_elora_device devices with
  | none => simp
  | some dev => simp [convert_to_buffer_length]

/-- C2: the market is reported open exactly on Monday-to-Friday instants
whose minutes since midnight UTC lie in `[14*60+30, 21*60)`; whenever it
is open the wait is the short 2-minute interval. -/
theorem is_market_open_iff_window (now : Nat) :
    (is_market_open now = true ↔
      weekdayOf (dateOf now) < 5 ∧
        14 * 60 + 30 ≤ now % 86400 / 60 ∧ now % 86400 / 60 < 21 * 60)
    ∧ (is_market_open now = true → get_refresh_rate now = some (2 * 60)) := by
  constructor
  · simp only [is_market_open, weekdayOf, dateOf, hourOf, minuteOf,
      MARKET_OPEN_HOUR, MARKET_OPEN_MINUTE, MARKET_CLOSE_HOUR, MARKET_CLOSE_MINUTE]
    split_ifs with h
    · simp only [Bool.false_eq_true, false_iff]
      omega
    · simp only [decide_eq_true_eq]
      omega
  · intro h
    simp [get_refresh_rate, h, REFRESH_RATE_MARKET_OPEN_SECS]

/-- Witness for C2 at Monday 1970-01-05 14:30:00 UTC (timestamp 397800). -/
theorem is_market_open_iff_window_witness :
    is_market_open 397800 = true ∧ get_refresh_rate 397800 = some (2 * 60) :=
  ⟨(is_market_open_iff_window 397800).1.mpr (by decide),
    (is_market_open_iff_window 397800).2
      ((is_market_open_iff_window 397800).1.mpr (by decide))⟩

/-- C3: while the market is closed, the wait is the remaining time to
the next market open plus a 2-minute buffer when the open is less than
3 hours away, and the long 3-hour interval otherwise. -/
theorem refresh_rate_when_closed (now : Nat) (h : is_market_open now = false) :
    get_refresh_rate now =
      some (if get_next_market_open now - now < 3 * 60 * 60
        then (get_next_market_open now - now) + 2 * 60
        else 3 * 60 * 60) :=
  get_refresh_rate_closed_eq now h

/-- Witness for C3: at the epoch (Thursday 00:00 UTC, closed, open more
than 3 hours away) the wait is 3 hours; at Thursday 13:00 UTC (timestamp
46800, open 90 minutes away) it is the remaining time plus 2 minutes. -/
theorem refresh_rate_when_closed_witness :
    (is_market_open 0 = false ∧ get_refresh_rate 0 = some (3 * 60 * 60))
    ∧ (is_market_open 46800 = false ∧ get_refresh_rate 46800 = some 5520) :=
  ⟨⟨by decide, (refresh_rate_when_closed 0 (by decide)).trans (by decide)⟩,
    ⟨by decide, (refresh_rate_when_closed 46800 (by decide)).trans (by decide)⟩⟩

/-- C4: a text longer than 32 bytes is truncated to exactly its first
32 bytes. -/
theorem convert_to_buffer_truncates (text : List Nat)
    (h : PACKET_SIZE < text.length) :
    convert_to_buffer text = text.take PACKET_SIZE := by
  have hlen : (text.take PACKET_SIZE).length = PACKET_SIZE := by
    rw [List.length_take]
    omega
  simp only [convert_to_buffer]
  rw [if_pos h, if_neg (by omega)]

/-- Witness for C4 on a 33-byte input. -/
theorem convert_to_buffer_truncates_witness :
    PACKET_SIZE < (List.replicate 33 7).length ∧
    convert_to_buffer (List.replicate 33 7) = (List.replicate 33 7).take PACKET_SIZE :=
  ⟨by decide, convert_to_buffer_truncates _ (by decide)⟩

/-- C5: a text of `n < 32` bytes is kept as bytes `0..n-1` and zero
padded on the right up to exactly 32 bytes. -/
theorem convert_to_buffer_pads (text : List Nat) (h : text.length < PACKET_SIZE) :
    convert_to_buffer text = text ++ List.replicate (PACKET_SIZE - text.length) 0 := by
  have h1 : ¬ PACKET_SIZE < text.length := by omega
  simp only [convert_to_buffer]
  rw [if_neg h1, if_pos h]

/-- Witness for C5 on a 2-byte input. -/
theorem convert_to_buffer_pads_witness :
    (([72, 105] : List Nat)).length < PACKET_SIZE ∧
    convert_to_buffer [72, 105]
      = [72, 105] ++ List.replicate (PACKET_SIZE - 2) 0 :=
  ⟨by decide, convert_to_buffer_pads [72, 105] (by decide)⟩

/-- Counterexample to C6: at Friday 1970-01-02 21:01:00 UTC (timestamp
162060, one minute after Friday's close) the wait is the long 3-hour
interval, so the next wake-up (timestamp 172860) is strictly before the
following Monday 14:30 UTC open (timestamp 397800) and falls on a
Saturday — it does not land at or after Monday's open. -/
theorem friday_wakeup_lands_on_saturday :
    get_refresh_rate 162060 = some (3 * 60 * 60) ∧
    get_next_market_open 162060 = 397800 ∧
    weekdayOf (dateOf 397800) = 0 ∧
    162060 + 3 * 60 * 60 < 397800 ∧
    weekdayOf (dateOf (162060 + 3 * 60 * 60)) = 5 := by
  exact ⟨by decide, by decide, by decide, by decide, by decide⟩

/-- C6 (amended): one minute after Friday's close, the *computed next
market open* is the following Monday 14:30 UTC (never Saturday), but the
chosen wait is the long 3-hour interval, so the next wake-up is Saturday
00:01; the loop keeps polling every 3 hours until Monday's open. -/
theorem friday_evening_refresh (now : Nat)
    (hw : weekdayOf (dateOf now) = 4) (hm : now % 86400 = 21 * 3600 + 60) :
    get_next_market_open now = (dateOf now + 3) * 86400 + marketOpenSecs ∧
    weekdayOf (dateOf (get_next_market_open now)) = 0 ∧
    get_refresh_rate now = some (3 * 60 * 60) := by
  have h1 : get_next_market_open now = (dateOf now + 3) * 86400 + marketOpenSecs := by
    simp only [get_next_market_open, rollWeekend, weekdayOf, dateOf, marketOpenSecs,
      MARKET_OPEN_HOUR, MARKET_OPEN_MINUTE] at *
    split_ifs <;> omega
  have h2 : is_market_open now = false := by
    simp only [is_market_open, weekdayOf, dateOf, hourOf, minuteOf,
      MARKET_OPEN_HOUR, MARKET_OPEN_MINUTE, MARKET_CLOSE_HOUR, MARKET_CLOSE_MINUTE] at *
    split_ifs with h
    · rfl
    · simp only [decide_eq_false_iff_not]
      omega
  refine ⟨h1, ?_, ?_⟩
  · rw [h1]
    simp only [weekdayOf, dateOf, marketOpenSecs, MARKET_OPEN_HOUR,
      MARKET_OPEN_MINUTE] at *
    omega
  · rw [get_refresh_rate_closed_eq now h2, h1]
    rw [if_neg]
    simp only [dateOf, marketOpenSecs, MARKET_OPEN_HOUR, MARKET_OPEN_MINUTE] at *
    omega

/-- Witness for the amended C6 at timestamp 162060 (Friday 21:01 UTC). -/
theorem friday_evening_refresh_witness :
    weekdayOf (dateOf 162060) = 4 ∧ 162060 % 86400 = 21 * 3600 + 60 ∧
    get_next_market_open 162060 = (dateOf 162060 + 3) * 86400 + marketOpenSecs ∧
    weekdayOf (dateOf (get_next_market_open 162060)) = 0 ∧
    get_refresh_rate 162060 = some (3 * 60 * 60) := by
  have h := friday_evening_refresh 162060 (by decide) (by decide)
  exact ⟨by decide, by decide, h.1, h.2.1, h.2.2⟩

/-- C7: with no matching device in the enumeration, `send_to_keyboard`
returns the recoverable error value `"Device disconnected"`; when there
is a match, the first matching device in enumeration order is the one
selected, and exactly that device is opened and written to. -/
theorem send_to_keyboard_selection {H : Type}
    (devices : List DeviceInfo) (open_device : DeviceInfo → Except String H)
    (write : H → List Nat → Except String Unit) (text : List Nat) :
    (find_elora_device devices = none →
      send_to_keyboard devices open_device write text
        = Except.error "Device disconnected")
    ∧ ∀ d, find_elora_device devices = some d →
        isEloraDevice d = true
        ∧ (∃ l1 l2, devices = l1 ++ d :: l2 ∧ ∀ x ∈ l1, isEloraDevice x = false)
        ∧ send_to_keyboard devices open_device write text =
            match open_device d with
            | Except.error e => Except.error e
            | Except.ok h => write h (convert_to_buffer text) := by
  constructor
  · intro h
    simp only [send_to_keyboard, h]
  · intro d hd
    obtain ⟨hp, l1, l2, heq, hall⟩ := find_first isEloraDevice devices d hd
    exact ⟨hp, ⟨l1, l2, heq, hall⟩, by simp only [send_to_keyboard, hd]⟩

/-- Witness for C7: an enumeration with a single non-matching device
yields the device-not-found error. -/
theorem send_to_keyboard_selection_witness :
    find_elora_device [⟨1, 2, 3, 4⟩] = none ∧
    send_to_keyboard (H := Unit) [⟨1, 2, 3, 4⟩] (fun _ => Except.ok ())
      (fun _ _ => Except.ok ()) [] = Except.error "Device disconnected" :=
  ⟨by decide,
    (send_to_keyboard_selection [⟨1, 2, 3, 4⟩] (fun _ => Except.ok ())
      (fun _ _ => Except.ok ()) []).1 (by decide)⟩

/-- C8: the main loop never terminates: after every cycle, whatever its
outcome, the trace reaches the next wake-up, the refresh policy is
consulted, the sleep is exactly the returned duration, and the trace
does not depend on the outcomes at all. -/
theorem main_loop_never_terminates (t0 : Nat)
    (outcomes : Nat → Except String Unit) (n : Nat) :
    ∃ t w, main_loop_trace t0 outcomes n = some t ∧
      get_refresh_rate t = some w ∧
      main_loop_trace t0 outcomes (n + 1) = some (t + w) ∧
      ∀ outcomes' : Nat → Except String Unit,
        main_loop_trace t0 outcomes' n = some t := by
  induction n with
  | zero =>
    obtain ⟨w, hw⟩ := get_refresh_rate_isSome t0
    refine ⟨t0, w, rfl, hw, ?_, fun _ => rfl⟩
    show main_loop_step t0 (outcomes 0) = some (t0 + w)
    cases outcomes 0 <;> simp [main_loop_step, hw]
  | succ n ih =>
    obtain ⟨t, w, ht, hw, hnext, hind⟩ := ih
    obtain ⟨w', hw'⟩ := get_refresh_rate_isSome (t + w)
    refine ⟨t + w, w', hnext, hw', ?_, ?_⟩
    · show (match main_loop_trace t0 outcomes (n + 1) with
        | none => none
        | some t => main_loop_step t (outcomes (n + 1))) = some (t + w + w')
      rw [hnext]
      cases outcomes (n + 1) <;> simp [main_loop_step, hw']
    · intro o'
      show (match main_loop_trace t0 o' n with
        | none => none
        | some t => main_loop_step t (o' n)) = some (t + w)
      rw [hind o']
      cases o' n <;> simp [main_loop_step, hw]

/-- C9: the ticker set {TSLA ↦ 500.0, NVDA ↦ 200.1} encodes, in
lexicographic symbol order, as the text `"NVDA: 200$\nTSLA: 500$"`
followed by zero padding to the fixed 32-byte size. -/
theorem encode_tsla_nvda :
    encode_ticker_set [("TSLA".data, 500), ("NVDA".data, (2001 : Rat) / 10)]
      = "NVDA: 200$\nTSLA: 500$".data.map Char.toNat ++ List.replicate 11 0 := by
  rw [rat_200_1_eq]
  decide

/-- C10: the next market open is always strictly in the future, on a
Monday-to-Friday day at exactly 14:30:00 UTC, hence the signed duration
until it is positive and `get_refresh_rate` never takes the
`to_std().unwrap()` panic branch. -/
theorem next_market_open_valid (now : Nat) :
    now < get_next_market_open now ∧
    weekdayOf (dateOf (get_next_market_open now)) < 5 ∧
    get_next_market_open now % 86400 = marketOpenSecs ∧
    (0 : Int) < (get_next_market_open now : Int) - (now : Int) ∧
    ∃ w, get_refresh_rate now = some w := by
  obtain ⟨h1, h2, h3⟩ := get_next_market_open_spec now
  exact ⟨h1, h2, h3, by omega, get_refresh_rate_isSome now⟩

end EloraHid
